import Mathlib

/-!
Verification of the S3 export pipeline of LogParserForKarpenter
(`src/s3/s3.go`): CSV serialization of the nodeclaim map (`convertToCSV`),
object-key generation, configuration gating (`init`, `IsEnabled`,
`GetConfig`) and the upload transaction (`UploadToS3`).

Shallow embedding conventions:
* Go strings are Lean `String`s; `fmt` renderings of field values are
  modelled as the already-rendered strings.
* The Go map `map[string]lp4k.Nodeclaimstruct` is modelled by its snapshot:
  a list of (identifier, record) pairs in the map's (arbitrary) iteration
  order, exactly the slice `s` the code builds before sorting.
* Effectful steps of `UploadToS3` (AWS config loading, `PutObject`) are
  modelled by injecting the outcome of each external call as an `Except`
  argument, and recording the calls the code makes in an outcome trace.
-/

namespace LP4K

/-- Modelled from the spec: `lp4k.Nodeclaimstruct` is defined in the
repository's `parser` package, which is not under `src/`. Per the spec a
Record is "a fixed-shape struct representing one node claim: a set of named
fields of scalar type (strings, numbers, a creation timestamp)".
`Createdtime` is the creation-time field (an ordered scalar) the sort in
`convertToCSV` compares with `>`; `rendered` is the list of the default
(`%v`) string representations of the record's declared fields, in the
record's declared field order, as produced by reflection in the row-emission
loop. -/
structure Nodeclaimstruct where
  Createdtime : Nat
  rendered : List String
deriving DecidableEq, Repr

/-- Snapshot entry: the `keyvalue` struct of `convertToCSV` (`key string;
value lp4k.Nodeclaimstruct`), modelled as a pair. -/
abbrev Keyvalue := String × Nodeclaimstruct

/-- Header generation of `convertToCSV` (lines 67-76 of `src/s3/s3.go`):
`header = "Nodeclaim[1]"`, then for each declared field `i` (0-based) of the
record shape, `header = fmt.Sprintf("%s,%s[%d]", header, name_i, i+2)`.
Reflection over the record type's declared fields is modelled by the list
`fields` of the declared field names in declaration order. -/
def csvHeader (fields : List String) : String :=
  fields.enum.foldl (fun h fi => h ++ ("," ++ fi.2 ++ "[" ++ toString (fi.1 + 2) ++ "]"))
    "Nodeclaim[1]"

/-- Row emission of `convertToCSV` (lines 102-110): write the identifier,
then `fmt.Sprintf(",%v", field)` for each declared field in order, then a
newline. -/
def csvRow (k : String) (v : Nodeclaimstruct) : String :=
  v.rendered.foldl (fun acc f => acc ++ ("," ++ f)) k ++ "\n"

/-- Body of the inner sort loop of `convertToCSV` (lines 95-101): compare
`s[i].value.Createdtime > s[j].value.Createdtime` and swap `s[i], s[j]` when
it holds. Out-of-range indices leave the slice unchanged (the loops never
produce them). -/
def cmpSwap (s : List Keyvalue) (i j : Nat) : List Keyvalue :=
  match s[i]?, s[j]? with
  | some x, some y =>
      if x.2.Createdtime > y.2.Createdtime then (s.set i y).set j x else s
  | _, _ => s

theorem cmpSwap_length (s : List Keyvalue) (i j : Nat) :
    (cmpSwap s i j).length = s.length := by
  unfold cmpSwap
  cases hx : s[i]? with
  | none => rfl
  | some x =>
      cases hy : s[j]? with
      | none => rfl
      | some y =>
          by_cases h : x.2.Createdtime > y.2.Createdtime

          · simp [h]
          · simp [h]

/-- Inner loop `for j := i + 1; j < len(s); j++` of the sort in
`convertToCSV`, entered at counter value `j`. -/
def innerLoop (s : List Keyvalue) (i j : Nat) : List Keyvalue :=
  if _h : j < s.length then innerLoop (cmpSwap s i j) i (j + 1) else s
termination_by s.length - j
decreasing_by rw [cmpSwap_length]; omega

theorem innerLoop_length (s : List Keyvalue) (i j : Nat) :
    (innerLoop s i j).length = s.length := by
  unfold innerLoop
  split
  · rw [innerLoop_length, cmpSwap_length]
  · rfl
termination_by s.length - j
decreasing_by rw [cmpSwap_length]; omega

/-- Outer loop `for i := 0; i < len(s); i++` of the sort in `convertToCSV`,
entered at counter value `i`. -/
def outerLoop (s : List Keyvalue) (i : Nat) : List Keyvalue :=
  if _h : i < s.length then outerLoop (innerLoop s i (i + 1)) (i + 1) else s
termination_by s.length - i
decreasing_by rw [innerLoop_length]; omega

/-- Sort of the snapshot in `convertToCSV` ("Sort by created time (simple
bubble sort for consistency)", lines 95-101): the two nested index loops
with conditional swap, started at `i = 0`. -/
def sortByCreatedtime (s : List Keyvalue) : List Keyvalue :=
  outerLoop s 0

/-- Reference form of one pass of the nested swap loop: processing the
remaining suffix `t` with current front candidate `x`, it returns the final
front element together with the suffix left behind (each position `j` where
a swap fired holds the previous candidate). Used only to reason about
`innerLoop`; `innerLoop_eq_selectPass` proves the correspondence. -/
def selectPass (x : Keyvalue) : List Keyvalue → Keyvalue × List Keyvalue
  | [] => (x, [])
  | y :: ys =>
      if x.2.Createdtime > y.2.Createdtime then
        let p := selectPass y ys
        (p.1, x :: p.2)
      else
        let p := selectPass x ys
        (p.1, y :: p.2)

theorem selectPass_length (x : Keyvalue) (t : List Keyvalue) :
    (selectPass x t).2.length = t.length := by
  induction t generalizing x with
  | nil => rfl
  | cons y ys ih =>
      unfold selectPass
      by_cases h : x.2.Createdtime > y.2.Createdtime

      · simp [h, ih]
      · simp [h, ih]

/-- Reference form of the whole double loop: repeatedly move the selected
front element out and recurse on the leftover suffix. `selectSortFuel` is
fuel-indexed so that it is structurally recursive; `selectSort` instantiates
the fuel with the length. -/
def selectSortFuel : Nat → List Keyvalue → List Keyvalue
  | 0, _ => []
  | _ + 1, [] => []
  | n + 1, x :: xs =>
      let p := selectPass x xs
      p.1 :: selectSortFuel n p.2

/-- Reference selection sort; `sortByCreatedtime_eq_selectSort` proves it
equal to the code's nested-loop sort. -/
def selectSort (l : List Keyvalue) : List Keyvalue :=
  selectSortFuel l.length l

theorem getElemq_append_cons (p r : List Keyvalue) (x : Keyvalue) :
    (p ++ x :: r)[p.length]? = some x := by
  induction p with
  | nil => simp
  | cons a as ih => simpa using ih

theorem set_append_cons (p r : List Keyvalue) (x y : Keyvalue) :
    (p ++ x :: r).set p.length y = p ++ y :: r := by
  induction p with
  | nil => rfl
  | cons a as ih => simp [ih]

/-- Unfolding `innerLoop` when the counter is already at or past the end. -/
theorem innerLoop_stop (s : List Keyvalue) (i j : Nat) (h : ¬ j < s.length) :
    innerLoop s i j = s := by
  unfold innerLoop
  simp [h]

/-- Unfolding `innerLoop` one step inside the range. -/
theorem innerLoop_step (s : List Keyvalue) (i j : Nat) (h : j < s.length) :
    innerLoop s i j = innerLoop (cmpSwap s i j) i (j + 1) := by
  conv_lhs => unfold innerLoop
  simp [h]

/-- Unfolding `outerLoop` when the counter is already at or past the end. -/
theorem outerLoop_stop (s : List Keyvalue) (i : Nat) (h : ¬ i < s.length) :
    outerLoop s i = s := by
  unfold outerLoop
  simp [h]

/-- Unfolding `outerLoop` one step inside the range. -/
theorem outerLoop_step (s : List Keyvalue) (i : Nat) (h : i < s.length) :
    outerLoop s i = outerLoop (innerLoop s i (i + 1)) (i + 1) := by
  conv_lhs => unfold outerLoop
  simp [h]

/-- Correspondence of the inner index loop with `selectPass`: with the
first `i = p.length` positions untouched, candidate `x` at position `i`,
positions `i+1 .. j-1` already processed (`mid`) and suffix `t` still to
scan, the loop leaves the prefix and `mid` in place and behaves as
`selectPass x t` on the rest. -/
theorem innerLoop_eq_selectPass (t : List Keyvalue) :
    ∀ (p mid : List Keyvalue) (x : Keyvalue),
      innerLoop (p ++ x :: (mid ++ t)) p.length (p.length + mid.length + 1) =
        p ++ (selectPass x t).1 :: (mid ++ (selectPass x t).2) := by
  induction t with
  | nil =>
      intro p mid x
      rw [innerLoop_stop]
      · simp [selectPass]
      · simp
        omega
  | cons y ys ih =>
      intro p mid x
      have hj : p.length + mid.length + 1 < (p ++ x :: (mid ++ y :: ys)).length := by
        simp
        omega
      rw [innerLoop_step _ _ _ hj]
      have hgi : (p ++ x :: (mid ++ y :: ys))[p.length]? = some x :=
        getElemq_append_cons p _ x
      have hgj : (p ++ x :: (mid ++ y :: ys))[p.length + mid.length + 1]? = some y := by
        have h1 : p ++ x :: (mid ++ y :: ys) = (p ++ x :: mid) ++ y :: ys := by simp
        have h2 : (p ++ x :: mid).length = p.length + mid.length + 1 := by simp; omega
        rw [h1, ← h2, getElemq_append_cons]
      by_cases hcmp : x.2.Createdtime > y.2.Createdtime
      · have hswap : cmpSwap (p ++ x :: (mid ++ y :: ys)) p.length (p.length + mid.length + 1)
            = p ++ y :: (mid ++ x :: ys) := by
          unfold cmpSwap
          rw [hgi, hgj]
          simp only [hcmp, if_true]
          rw [set_append_cons]
          have h1 : p ++ y :: (mid ++ y :: ys) = (p ++ y :: mid) ++ y :: ys := by simp
          have h2 : (p ++ y :: mid).length = p.length + mid.length + 1 := by simp; omega
          rw [h1, ← h2, set_append_cons]
          simp
        rw [hswap]
        have hmid : p ++ y :: (mid ++ x :: ys) = p ++ y :: ((mid ++ [x]) ++ ys) := by simp
        have hcnt : p.length + mid.length + 1 + 1 = p.length + (mid ++ [x]).length + 1 := by
          simp
          omega
        rw [hmid, hcnt, ih p (mid ++ [x]) y]
        simp [selectPass, hcmp]
      · have hnoswap : cmpSwap (p ++ x :: (mid ++ y :: ys)) p.length (p.length + mid.length + 1)
            = p ++ x :: (mid ++ y :: ys) := by
          unfold cmpSwap
          rw [hgi, hgj]
          simp [hcmp]
        rw [hnoswap]
        have hmid : p ++ x :: (mid ++ y :: ys) = p ++ x :: ((mid ++ [y]) ++ ys) := by simp
        have hcnt : p.length + mid.length + 1 + 1 = p.length + (mid ++ [y]).length + 1 := by
          simp
          omega
        rw [hmid, hcnt, ih p (mid ++ [y]) x]
        simp [selectPass, hcmp]

/-- Correspondence of the outer loop with `selectSort`: once the first
`p.length` positions are final, the remaining iterations sort the suffix. -/
theorem outerLoop_eq_selectSort (n : Nat) :
    ∀ (l p : List Keyvalue), l.length = n →
      outerLoop (p ++ l) p.length = p ++ selectSort l := by
  induction n with
  | zero =>
      intro l p hl
      have : l = [] := List.length_eq_zero.mp hl
      subst this
      rw [outerLoop_stop]
      · simp [selectSort, selectSortFuel]
      · simp
  | succ n ih =>
      intro l p hl
      cases l with
      | nil => simp at hl
      | cons x xs =>
          have hi : p.length < (p ++ x :: xs).length := by simp
          rw [outerLoop_step _ _ hi]
          have hinner := innerLoop_eq_selectPass xs p [] x
          simp only [List.nil_append, List.length_nil, Nat.add_zero] at hinner
          rw [hinner]
          have hsplit : p ++ (selectPass x xs).1 :: (selectPass x xs).2
              = (p ++ [(selectPass x xs).1]) ++ (selectPass x xs).2 := by simp
          have hlen : (p ++ [(selectPass x xs).1]).length = p.length + 1 := by simp
          have hrec := ih (selectPass x xs).2 (p ++ [(selectPass x xs).1])
            (by rw [selectPass_length]; simpa using hl)
          rw [hsplit, ← hlen, hrec]
          have : selectSort (x :: xs) =
              (selectPass x xs).1 :: selectSort (selectPass x xs).2 := by
            unfold selectSort
            have h2 : (selectPass x xs).2.length = xs.length := selectPass_length x xs
            simp only [List.length_cons]
            rw [selectSortFuel, h2]
          rw [this]
          simp

/-- The nested-loop sort of `convertToCSV` computes the reference selection
sort. -/
theorem sortByCreatedtime_eq_selectSort (l : List Keyvalue) :
    sortByCreatedtime l = selectSort l := by
  have := outerLoop_eq_selectSort l.length l [] rfl
  simpa [sortByCreatedtime] using this

/-- Ordering on snapshot entries used by the sort: ascending creation
time. -/
def leCreated (a b : Keyvalue) : Prop :=
  a.2.Createdtime ≤ b.2.Createdtime

theorem selectPass_min (t : List Keyvalue) (x : Keyvalue) :
    leCreated (selectPass x t).1 x ∧
      ∀ z ∈ (selectPass x t).2, leCreated (selectPass x t).1 z := by
  induction t generalizing x with
  | nil => exact ⟨Nat.le_refl _, by intro z hz; simp [selectPass] at hz⟩
  | cons y ys ih =>
      by_cases h : x.2.Createdtime > y.2.Createdtime
      · obtain ⟨h1, h2⟩ := ih y
        refine ⟨?_, ?_⟩
        · simp only [selectPass, h, if_true]
          exact Nat.le_trans h1 (Nat.le_of_lt h)
        · intro z hz
          simp only [selectPass, h, if_true] at hz ⊢
          rcases List.mem_cons.mp hz with hz | hz
          · subst hz; exact Nat.le_trans h1 (Nat.le_of_lt h)
          · exact h2 z hz
      · obtain ⟨h1, h2⟩ := ih x
        refine ⟨?_, ?_⟩
        · simp only [selectPass, h, if_false]
          exact h1
        · intro z hz
          simp only [selectPass, h, if_false] at hz ⊢
          rcases List.mem_cons.mp hz with hz | hz
          · subst hz
            exact Nat.le_trans h1 (Nat.le_of_not_lt h)
          · exact h2 z hz

theorem selectPass_perm (t : List Keyvalue) (x : Keyvalue) :
    List.Perm ((selectPass x t).1 :: (selectPass x t).2) (x :: t) := by
  induction t generalizing x with
  | nil => simp [selectPass]
  | cons y ys ih =>
      by_cases h : x.2.Createdtime > y.2.Createdtime
      · have hsel : selectPass x (y :: ys) =
            ((selectPass y ys).1, x :: (selectPass y ys).2) := by
          simp [selectPass, h]
        rw [hsel]
        exact (List.Perm.swap x _ _).trans ((ih y).cons x)
      · have hsel : selectPass x (y :: ys) =
            ((selectPass x ys).1, y :: (selectPass x ys).2) := by
          simp [selectPass, h]
        rw [hsel]
        exact (List.Perm.swap y _ _).trans (((ih x).cons y).trans (List.Perm.swap x y ys))

theorem selectSort_perm (n : Nat) :
    ∀ l : List Keyvalue, l.length = n → List.Perm (selectSort l) l := by
  induction n with
  | zero =>
      intro l hl
      have : l = [] := List.length_eq_zero.mp hl
      subst this
      simp [selectSort, selectSortFuel]
  | succ n ih =>
      intro l hl
      cases l with
      | nil => simp at hl
      | cons x xs =>
          have hsel : selectSort (x :: xs) =
              (selectPass x xs).1 :: selectSort (selectPass x xs).2 := by
            unfold selectSort
            simp only [List.length_cons]
            rw [selectSortFuel, selectPass_length]
          rw [hsel]
          have hrec : List.Perm (selectSort (selectPass x xs).2) (selectPass x xs).2 :=
            ih _ (by rw [selectPass_length]; simpa using hl)
          exact (hrec.cons _).trans (selectPass_perm xs x)

theorem selectSort_sorted (n : Nat) :
    ∀ l : List Keyvalue, l.length = n → List.Sorted leCreated (selectSort l) := by
  induction n with
  | zero =>
      intro l hl
      have : l = [] := List.length_eq_zero.mp hl
      subst this
      simp [selectSort, selectSortFuel]
  | succ n ih =>
      intro l hl
      cases l with
      | nil => simp at hl
      | cons x xs =>
          have hsel : selectSort (x :: xs) =
              (selectPass x xs).1 :: selectSort (selectPass x xs).2 := by
            unfold selectSort
            simp only [List.length_cons]
            rw [selectSortFuel, selectPass_length]
          rw [hsel, List.sorted_cons]
          have hlen : (selectPass x xs).2.length = n := by
            rw [selectPass_length]; simpa using hl
          refine ⟨?_, ih _ hlen⟩
          intro b hb
          have hb2 : b ∈ (selectPass x xs).2 := (selectSort_perm n _ hlen).mem_iff.mp hb
          exact (selectPass_min xs x).2 b hb2

/-- Uniqueness of the sorted order when creation times are pairwise
distinct: two sorted permutations of each other are equal. -/
theorem sorted_perm_eq_of_distinct (l₁ l₂ : List Keyvalue)
    (hperm : List.Perm l₁ l₂)
    (hs₁ : List.Sorted leCreated l₁) (hs₂ : List.Sorted leCreated l₂)
    (hd : List.Pairwise (fun a b : Keyvalue => a.2.Createdtime ≠ b.2.Createdtime) l₁) :
    l₁ = l₂ := by
  have hd₂ : List.Pairwise (fun a b : Keyvalue => a.2.Createdtime ≠ b.2.Createdtime) l₂ :=
    (hperm.pairwise_iff (fun h => h.symm)).mp hd
  have hlt₁ : List.Pairwise (fun a b : Keyvalue => a.2.Createdtime < b.2.Createdtime) l₁ :=
    (hs₁.and hd).imp (fun h => Nat.lt_of_le_of_ne h.1 h.2)
  have hlt₂ : List.Pairwise (fun a b : Keyvalue => a.2.Createdtime < b.2.Createdtime) l₂ :=
    (hs₂.and hd₂).imp (fun h => Nat.lt_of_le_of_ne h.1 h.2)
  haveI : IsAntisymm Keyvalue (fun a b : Keyvalue => a.2.Createdtime < b.2.Createdtime) :=
    ⟨fun a b h1 h2 => absurd (Nat.lt_trans h1 h2) (Nat.lt_irrefl _)⟩
  exact List.eq_of_perm_of_sorted hperm hlt₁ hlt₂

/-- Full `convertToCSV` (lines 62-114 of `src/s3/s3.go`): header plus
newline; early return when the map is empty; otherwise sort the snapshot and
append one row per pair. `nodeclaimmap` is the snapshot of the Go map in its
iteration order. -/
def convertToCSV (fields : List String) (nodeclaimmap : List Keyvalue) : String :=
  if nodeclaimmap.length = 0 then csvHeader fields ++ "\n"
  else (sortByCreatedtime nodeclaimmap).foldl (fun acc kv => acc ++ csvRow kv.1 kv.2)
    (csvHeader fields ++ "\n")

theorem string_foldl_append (l : List String) :
    ∀ init : String, l.foldl (fun a b => a ++ b) init = init ++ String.join l := by
  induction l with
  | nil =>
      intro init
      simp [String.join, String.append_empty]
  | cons s ss ih =>
      intro init
      simp only [String.join, List.foldl_cons] at *
      rw [ih (init ++ s), ih ("" ++ s), String.empty_append, String.append_assoc]

theorem string_join_cons (s : String) (l : List String) :
    String.join (s :: l) = s ++ String.join l := by
  simp only [String.join, List.foldl_cons]
  rw [show ("" ++ s) = s from String.empty_append s, string_foldl_append]
  rfl

/-- Accumulator-append folds, as built by `bytes.Buffer` writes, concatenate
the pieces after the initial buffer contents. -/
theorem foldl_append_map {α : Type} (f : α → String) (l : List α) :
    ∀ init : String,
      l.foldl (fun acc a => acc ++ f a) init = init ++ String.join (l.map f) := by
  induction l with
  | nil =>
      intro init
      simp [String.join, String.append_empty]
  | cons a as ih =>
      intro init
      simp only [List.foldl_cons, List.map_cons]
      rw [ih (init ++ f a), string_join_cons, String.append_assoc]

/-- Decomposition of `convertToCSV` on a non-empty snapshot: the header
line, then the rows of the sorted snapshot in order. -/
theorem convertToCSV_nonempty (fields : List String) (l : List Keyvalue) (h : l ≠ []) :
    convertToCSV fields l
      = csvHeader fields ++ "\n" ++
        String.join ((sortByCreatedtime l).map (fun kv => csvRow kv.1 kv.2)) := by
  have hlen : ¬ l.length = 0 := by
    simpa [List.length_eq_zero] using h
  unfold convertToCSV
  rw [if_neg hlen, foldl_append_map]

/-- Library helper: `strings.HasSuffix(s, suf)` of Go, at character level. -/
def stringsHasSuffix (s suf : String) : Bool :=
  suf.data.isSuffixOf s.data

/-- Library helper: `strings.TrimSuffix(s, suf)` of Go — when `suf` ends
`s`, return `s[:len(s)-len(suf)]`, else `s` unchanged. -/
def stringsTrimSuffix (s suf : String) : String :=
  if stringsHasSuffix s suf then ⟨s.data.take (s.data.length - suf.data.length)⟩ else s

/-- Wall-clock instant at second resolution, the part of `time.Now()` the
key format observes. -/
structure Timestamp where
  year : Nat
  month : Nat
  day : Nat
  hour : Nat
  minute : Nat
  second : Nat
deriving DecidableEq, Repr

/-- Two-digit zero-padded decimal, as Go's `01`/`02`/`15`/`04`/`05` layout
components render month, day, hour, minute, second. -/
def pad2 (n : Nat) : String :=
  if n < 10 then "0" ++ toString n else toString n

/-- Four-digit zero-padded decimal, as Go's `2006` layout component renders
the year. -/
def pad4 (n : Nat) : String :=
  if n < 10 then "000" ++ toString n
  else if n < 100 then "00" ++ toString n
  else if n < 1000 then "0" ++ toString n
  else toString n

/-- Go `time.Format("2006-01-02-15-04-05")`: the timestamp at second
resolution, fields zero-padded and joined with dashes. -/
def formatTimestamp (t : Timestamp) : String :=
  pad4 t.year ++ "-" ++ pad2 t.month ++ "-" ++ pad2 t.day ++ "-" ++
    pad2 t.hour ++ "-" ++ pad2 t.minute ++ "-" ++ pad2 t.second

/-- Object-key computation of `UploadToS3` (lines 134-136 of
`src/s3/s3.go`): `fmt.Sprintf("%s/karpenter-nodeclaims-%s.csv",
strings.TrimSuffix(s3Prefix, "/"), timestamp)`. -/
def s3KeyFor (s3Pfx : String) (t : Timestamp) : String :=
  stringsTrimSuffix s3Pfx "/" ++ "/karpenter-nodeclaims-" ++ formatTimestamp t ++ ".csv"

/-- Package-level S3 configuration state (`s3Bucket`, `s3Prefix`,
`s3Region`, `s3Enabled` of `src/s3/s3.go`). -/
structure S3Config where
  s3Bucket : String
  s3Pfx : String
  s3Region : String
  s3Enabled : Bool
deriving DecidableEq, Repr

/-- Configuration resolution of `init()` (lines 32-49 of `src/s3/s3.go`) as
a function of the three environment readings (`LP4K_S3_BUCKET`,
`LP4K_S3_PREFIX`, `LP4K_S3_REGION`): enabled iff the bucket is non-empty;
when enabled, an empty key prefix defaults to `"karpenter-logs"` and an
empty region to `"us-east-1"`. -/
def initConfig (bucketEnv prefixEnv regionEnv : String) : S3Config :=
  let enabled := bucketEnv != ""
  if enabled then
    { s3Bucket := bucketEnv
      s3Pfx := if prefixEnv == "" then "karpenter-logs" else prefixEnv
      s3Region := if regionEnv == "" then "us-east-1" else regionEnv
      s3Enabled := enabled }
  else
    { s3Bucket := bucketEnv, s3Pfx := prefixEnv, s3Region := regionEnv,
      s3Enabled := enabled }

/-- Accessor `IsEnabled()` of `src/s3/s3.go` (lines 52-54). -/
def IsEnabled (c : S3Config) : Bool :=
  c.s3Enabled

/-- Accessor `GetConfig()` of `src/s3/s3.go` (lines 57-59): the
`(bucket, prefix, region)` triple. -/
def GetConfig (c : S3Config) : String × String × String :=
  (c.s3Bucket, c.s3Pfx, c.s3Region)

/-- Typed view of the two wrapped errors `UploadToS3` can return: the
`fmt.Errorf("...: %w", err)` wrappings on the config-load and the
`PutObject` paths. Each constructor carries the underlying cause it wraps. -/
inductive UploadErr where
  | configurationError (cause : String)
  | uploadError (cause : String)
deriving DecidableEq, Repr

/-- Message text of the wrapped error, as `fmt.Errorf` formats it. -/
def UploadErr.message : UploadErr → String
  | .configurationError c => "unable to load AWS SDK config: " ++ c
  | .uploadError c => "failed to upload to S3: " ++ c

/-- Go `errors.Unwrap` on the wrapped error: the `%w`-preserved cause. -/
def UploadErr.unwrap : UploadErr → String
  | .configurationError c => c
  | .uploadError c => c

/-- One `PutObject` call as issued by `UploadToS3` (lines 139-145):
bucket, key, body bytes and content type. -/
structure PutCall where
  bucket : String
  key : String
  body : String
  contentType : String
deriving DecidableEq, Repr

/-- Observable outcome of one `UploadToS3` call: the returned error (`none`
is Go's `nil`), how many times `convertToCSV` ran, the `PutObject` calls
issued, and the success notices printed to stderr. -/
structure UploadOutcome where
  result : Option UploadErr
  serializations : Nat
  putCalls : List PutCall
  notices : List String
deriving DecidableEq, Repr

/-- Full `UploadToS3` (lines 116-152 of `src/s3/s3.go`). External effects
are injected: `loadRes` is the outcome of `config.LoadDefaultConfig` (the
AWS configuration value itself is opaque and unused beyond success),
`now` the clock reading, `putRes` the outcome of the single
`client.PutObject` call; the error payloads are the causes' rendered
messages. The function returns the trace of what the code does with them. -/
def UploadToS3 (c : S3Config) (loadRes : Except String Unit)
    (fields : List String) (nodeclaimmap : List Keyvalue)
    (now : Timestamp) (putRes : Except String Unit) : UploadOutcome :=
  if !c.s3Enabled then
    { result := none, serializations := 0, putCalls := [], notices := [] }
  else
    match loadRes with
    | .error e =>
        { result := some (.configurationError e), serializations := 0,
          putCalls := [], notices := [] }
    | .ok _ =>
        let csvData := convertToCSV fields nodeclaimmap
        let s3Key := s3KeyFor c.s3Pfx now
        let call : PutCall :=
          { bucket := c.s3Bucket, key := s3Key, body := csvData,
            contentType := "text/csv" }
        match putRes with
        | .error e =>
            { result := some (.uploadError e), serializations := 1,
              putCalls := [call], notices := [] }
        | .ok _ =>
            { result := none, serializations := 1, putCalls := [call],
              notices := ["Successfully uploaded to s3://" ++ c.s3Bucket ++ "/" ++ s3Key] }

/-- C1: for every non-empty Record Collection snapshot, in whatever
iteration order the map yields it, the data rows `convertToCSV` emits are
exactly the rows of the sorted snapshot, which is sorted ascending by the
record's `Createdtime` field and is a permutation of the snapshot. -/
theorem C1_convertToCSV_sorted_rows (fields : List String) (l : List Keyvalue)
    (h : l ≠ []) :
    convertToCSV fields l
        = csvHeader fields ++ "\n" ++
          String.join ((sortByCreatedtime l).map (fun kv => csvRow kv.1 kv.2)) ∧
    List.Sorted leCreated (sortByCreatedtime l) ∧
    List.Perm (sortByCreatedtime l) l := by
  refine ⟨convertToCSV_nonempty fields l h, ?_, ?_⟩
  · rw [sortByCreatedtime_eq_selectSort]
    exact selectSort_sorted l.length l rfl
  · rw [sortByCreatedtime_eq_selectSort]
    exact selectSort_perm l.length l rfl

/-- Witness for C1 at the spec's example collection (creation times
`[30, 10, 20]` under identifiers `c, a, b`). -/
theorem C1_witness :
    convertToCSV ["Name", "Createdtime"]
        [("c", ⟨30, ["cn", "30"]⟩), ("a", ⟨10, ["an", "10"]⟩), ("b", ⟨20, ["bn", "20"]⟩)]
        = csvHeader ["Name", "Createdtime"] ++ "\n" ++
          String.join ((sortByCreatedtime
              [("c", ⟨30, ["cn", "30"]⟩), ("a", ⟨10, ["an", "10"]⟩),
                ("b", ⟨20, ["bn", "20"]⟩)]).map (fun kv => csvRow kv.1 kv.2)) ∧
    List.Sorted leCreated (sortByCreatedtime
        [("c", ⟨30, ["cn", "30"]⟩), ("a", ⟨10, ["an", "10"]⟩), ("b", ⟨20, ["bn", "20"]⟩)]) ∧
    List.Perm (sortByCreatedtime
        [("c", ⟨30, ["cn", "30"]⟩), ("a", ⟨10, ["an", "10"]⟩), ("b", ⟨20, ["bn", "20"]⟩)])
      [("c", ⟨30, ["cn", "30"]⟩), ("a", ⟨10, ["an", "10"]⟩), ("b", ⟨20, ["bn", "20"]⟩)] :=
  C1_convertToCSV_sorted_rows _ _ (by decide)

/-- C2: when the configuration gate is disabled, `UploadToS3` returns nil
immediately, with zero serializations, zero storage writes and no notice,
whatever the outcomes of the external calls would have been. -/
theorem C2_upload_disabled (c : S3Config) (loadRes putRes : Except String Unit)
    (fields : List String) (l : List Keyvalue) (now : Timestamp)
    (h : IsEnabled c = false) :
    UploadToS3 c loadRes fields l now putRes
      = { result := none, serializations := 0, putCalls := [], notices := [] } := by
  have hb : c.s3Enabled = false := h
  simp [UploadToS3, hb]

/-- Witness for C2: with no bucket configured, an export of a non-empty
collection is a successful no-op even when the storage stub would fail. -/
theorem C2_witness :
    UploadToS3 (initConfig "" "pfx" "reg") (.ok ()) ["Name"] [("a", ⟨10, ["an"]⟩)]
        ⟨2024, 1, 2, 3, 4, 5⟩ (.error "boom")
      = { result := none, serializations := 0, putCalls := [], notices := [] } :=
  C2_upload_disabled _ _ _ _ _ _ (by decide)

/-- C3: on the empty Record Collection the output of `convertToCSV` is
exactly the header line followed by a single newline and nothing else. -/
theorem C3_convertToCSV_empty (fields : List String) :
    convertToCSV fields [] = csvHeader fields ++ "\n" := rfl

/-- C4: the CSV header is the fixed label `Nodeclaim[1]` followed by one
column per declared record field, named `name[i+2]` for the `i`-th declared
field (0-based); the shape `[Name, Createdtime]` yields
`Nodeclaim[1],Name[2],Createdtime[3]`. -/
theorem C4_csvHeader_format :
    (∀ fields : List String,
        csvHeader fields
          = "Nodeclaim[1]" ++
            String.join (fields.enum.map
              (fun fi => "," ++ fi.2 ++ "[" ++ toString (fi.1 + 2) ++ "]"))) ∧
    csvHeader ["Name", "Createdtime"] = "Nodeclaim[1],Name[2],Createdtime[3]" :=
  ⟨fun fields => foldl_append_map _ fields.enum "Nodeclaim[1]", rfl⟩

/-- C5: each data line is the identifier, then every rendered field value
in declared order each preceded by a comma, terminated by one newline —
with no quoting or escaping anywhere — and the whole output is the header
line followed by exactly one such line per sorted pair. -/
theorem C5_row_format (fields : List String) (l : List Keyvalue) :
    (∀ (k : String) (v : Nodeclaimstruct),
        csvRow k v = k ++ String.join (v.rendered.map (fun f => "," ++ f)) ++ "\n") ∧
    (l ≠ [] →
      convertToCSV fields l
        = csvHeader fields ++ "\n" ++
          String.join ((sortByCreatedtime l).map (fun kv => csvRow kv.1 kv.2))) := by
  constructor
  · intro k v
    unfold csvRow
    rw [foldl_append_map]
  · exact convertToCSV_nonempty fields l

/-- Witness for C5 on a one-record collection. -/
theorem C5_witness :
    csvRow "a" ⟨10, ["an", "10"]⟩
        = "a" ++ String.join (["an", "10"].map (fun f => "," ++ f)) ++ "\n" ∧
    convertToCSV ["Name", "Createdtime"] [("a", ⟨10, ["an", "10"]⟩)]
        = csvHeader ["Name", "Createdtime"] ++ "\n" ++
          String.join ((sortByCreatedtime [("a", ⟨10, ["an", "10"]⟩)]).map
            (fun kv => csvRow kv.1 kv.2)) :=
  ⟨(C5_row_format ["Name", "Createdtime"] [("a", ⟨10, ["an", "10"]⟩)]).1 "a" ⟨10, ["an", "10"]⟩,
   (C5_row_format ["Name", "Createdtime"] [("a", ⟨10, ["an", "10"]⟩)]).2 (by decide)⟩

/-- C6: the object key is the configured prefix with one trailing slash
stripped, then `/karpenter-nodeclaims-`, the second-resolution timestamp
`YYYY-MM-DD-HH-MM-SS`, and `.csv`; prefix `logs/` at 2024-01-02T03:04:05
yields `logs/karpenter-nodeclaims-2024-01-02-03-04-05.csv`. -/
theorem C6_s3Key_format :
    (∀ (pfx : String) (t : Timestamp),
        s3KeyFor pfx t
          = stringsTrimSuffix pfx "/" ++ "/karpenter-nodeclaims-" ++
            formatTimestamp t ++ ".csv") ∧
    formatTimestamp ⟨2024, 1, 2, 3, 4, 5⟩ = "2024-01-02-03-04-05" ∧
    s3KeyFor "logs/" ⟨2024, 1, 2, 3, 4, 5⟩
      = "logs/karpenter-nodeclaims-2024-01-02-03-04-05.csv" :=
  ⟨fun _ _ => rfl, rfl, by decide⟩

/-- C7: after configuration resolution, enabled equals "the location is
non-empty"; when enabled, prefix and region are non-empty, an empty prefix
setting resolves to `karpenter-logs`, an empty region setting to
`us-east-1`, and non-empty settings are kept; `IsEnabled` and `GetConfig`
return exactly the resolved values. -/
theorem C7_initConfig_invariant (b p r : String) :
    IsEnabled (initConfig b p r) = (b != "") ∧
    (IsEnabled (initConfig b p r) = true →
      (initConfig b p r).s3Pfx ≠ "" ∧ (initConfig b p r).s3Region ≠ "") ∧
    (b ≠ "" → p = "" → (initConfig b p r).s3Pfx = "karpenter-logs") ∧
    (b ≠ "" → p ≠ "" → (initConfig b p r).s3Pfx = p) ∧
    (b ≠ "" → r = "" → (initConfig b p r).s3Region = "us-east-1") ∧
    (b ≠ "" → r ≠ "" → (initConfig b p r).s3Region = r) ∧
    GetConfig (initConfig b p r)
      = ((initConfig b p r).s3Bucket, (initConfig b p r).s3Pfx,
          (initConfig b p r).s3Region) ∧
    (initConfig b p r).s3Bucket = b := by
  by_cases hb : b = "" <;> by_cases hp : p = "" <;> by_cases hr : r = "" <;>
    simp [initConfig, IsEnabled, GetConfig, hb, hp, hr]

/-- Witness for C7 with a configured location and unset prefix/region. -/
theorem C7_witness :
    IsEnabled (initConfig "bkt" "" "") = ("bkt" != "") ∧
    (initConfig "bkt" "" "").s3Pfx = "karpenter-logs" ∧
    (initConfig "bkt" "" "").s3Region = "us-east-1" ∧
    (initConfig "bkt" "" "").s3Bucket = "bkt" :=
  ⟨(C7_initConfig_invariant "bkt" "" "").1,
   (C7_initConfig_invariant "bkt" "" "").2.2.1 (by decide) rfl,
   (C7_initConfig_invariant "bkt" "" "").2.2.2.2.1 (by decide) rfl,
   (C7_initConfig_invariant "bkt" "" "").2.2.2.2.2.2.2⟩

/-- C8: with the gate enabled, a failure of AWS config/credential loading
makes `UploadToS3` return a ConfigurationError wrapping the cause, with no
serialization and no storage write attempted. -/
theorem C8_upload_configError (c : S3Config) (e : String)
    (fields : List String) (l : List Keyvalue) (now : Timestamp)
    (putRes : Except String Unit) (h : IsEnabled c = true) :
    UploadToS3 c (.error e) fields l now putRes
        = { result := some (.configurationError e), serializations := 0,
            putCalls := [], notices := [] } ∧
    (UploadErr.configurationError e).unwrap = e := by
  have hb : c.s3Enabled = true := h
  exact ⟨by simp [UploadToS3, hb], rfl⟩

/-- Witness for C8 on an enabled configuration. -/
theorem C8_witness :
    UploadToS3 (initConfig "bkt" "" "") (.error "no credentials") ["Name"]
        [("a", ⟨10, ["an"]⟩)] ⟨2024, 1, 2, 3, 4, 5⟩ (.ok ())
        = { result := some (.configurationError "no credentials"),
            serializations := 0, putCalls := [], notices := [] } ∧
    (UploadErr.configurationError "no credentials").unwrap = "no credentials" :=
  C8_upload_configError _ _ _ _ _ _ (by decide)

/-- C9: with the gate enabled and serialization done, a failed storage
write makes `UploadToS3` return an UploadError wrapping the underlying
cause, after exactly one write attempt and with no success notice; the
success notice naming the destination is emitted exactly when the write
succeeds. -/
theorem C9_upload_putError (c : S3Config) (e : String)
    (fields : List String) (l : List Keyvalue) (now : Timestamp)
    (h : IsEnabled c = true) :
    (UploadToS3 c (.ok ()) fields l now (.error e)
        = { result := some (.uploadError e), serializations := 1,
            putCalls := [{ bucket := c.s3Bucket, key := s3KeyFor c.s3Pfx now,
                           body := convertToCSV fields l,
                           contentType := "text/csv" }],
            notices := [] }) ∧
    (UploadErr.uploadError e).unwrap = e ∧
    (UploadToS3 c (.ok ()) fields l now (.ok ())).notices
        = ["Successfully uploaded to s3://" ++ c.s3Bucket ++ "/" ++ s3KeyFor c.s3Pfx now] := by
  have hb : c.s3Enabled = true := h
  refine ⟨?_, rfl, ?_⟩ <;> simp [UploadToS3, hb]

/-- Witness for C9 on an enabled configuration with a failing then a
succeeding storage stub. -/
theorem C9_witness :
    (UploadToS3 (initConfig "bkt" "" "") (.ok ()) ["Name"] [("a", ⟨10, ["an"]⟩)]
        ⟨2024, 1, 2, 3, 4, 5⟩ (.error "putfail")
        = { result := some (.uploadError "putfail"), serializations := 1,
            putCalls := [{ bucket := (initConfig "bkt" "" "").s3Bucket,
                           key := s3KeyFor (initConfig "bkt" "" "").s3Pfx
                             ⟨2024, 1, 2, 3, 4, 5⟩,
                           body := convertToCSV ["Name"] [("a", ⟨10, ["an"]⟩)],
                           contentType := "text/csv" }],
            notices := [] }) ∧
    (UploadErr.uploadError "putfail").unwrap = "putfail" ∧
    (UploadToS3 (initConfig "bkt" "" "") (.ok ()) ["Name"] [("a", ⟨10, ["an"]⟩)]
        ⟨2024, 1, 2, 3, 4, 5⟩ (.ok ())).notices
      = ["Successfully uploaded to s3://" ++ (initConfig "bkt" "" "").s3Bucket ++ "/"
          ++ s3KeyFor (initConfig "bkt" "" "").s3Pfx ⟨2024, 1, 2, 3, 4, 5⟩] :=
  C9_upload_putError _ _ _ _ _ (by decide)

/-- C10: when creation times are pairwise distinct, `convertToCSV` is a
function of the collection alone — any two iteration orders of the same
mapping produce byte-identical output. -/
theorem C10_convertToCSV_deterministic (fields : List String) (l l' : List Keyvalue)
    (hperm : List.Perm l l')
    (hd : List.Pairwise (fun a b : Keyvalue => a.2.Createdtime ≠ b.2.Createdtime) l) :
    convertToCSV fields l = convertToCSV fields l' := by
  have h1 := selectSort_perm l.length l rfl
  have h2 := selectSort_perm l'.length l' rfl
  have hsorteq : sortByCreatedtime l = sortByCreatedtime l' := by
    rw [sortByCreatedtime_eq_selectSort, sortByCreatedtime_eq_selectSort]
    refine sorted_perm_eq_of_distinct _ _ ?_ (selectSort_sorted l.length l rfl)
      (selectSort_sorted l'.length l' rfl) ?_
    · exact h1.trans (hperm.trans h2.symm)
    · exact (List.Perm.pairwise_iff (fun hx => hx.symm) h1).mpr hd
  unfold convertToCSV
  rw [hperm.length_eq, hsorteq]

/-- Witness for C10 on two iteration orders of a two-record collection. -/
theorem C10_witness :
    convertToCSV ["Createdtime"] [("a", ⟨10, ["10"]⟩), ("b", ⟨20, ["20"]⟩)]
      = convertToCSV ["Createdtime"] [("b", ⟨20, ["20"]⟩), ("a", ⟨10, ["10"]⟩)] :=
  C10_convertToCSV_deterministic _ _ _ (by decide) (by decide)

end LP4K
